import Mathlib

/-!
# Verification of the Dots & Boxes engine and session layer

Shallow embedding of the repository's core:

* `src/src/gameLogic.ts` — the pure game engine (`createInitialState`, `applyMove`).
* `src/src/worker/GameRoom.ts` — the per-room session (`fetch` admission,
  `webSocketMessage` move handling, `webSocketClose` disconnect broadcast).
* `src/src/client/hooks/useRemoteMultiplayer.ts` — the client connection
  controller (`ws.onclose` reconnection policy, `ws.onopen` counter reset).

Matrices (`hLines`, `vLines`, `boxes`) are embedded as total functions
`Nat → Nat → Nat` (cell value `0` = unset, otherwise the player number);
every read the source performs is either bounds-guarded or used in a
truthiness test where JavaScript's `undefined` and our out-of-range default
both behave as "falsy", so the embedding agrees with the source on all
states whose arrays have the documented dimensions.
-/

/-- A board matrix: cell value `0` means unset, otherwise a player number. -/
abbrev Grid := Nat → Nat → Nat

/-- Functional update of one cell of a grid (the source copies the array and
assigns one index). -/
def setG (g : Grid) (r c v : Nat) : Grid :=
  fun i j => if i = r ∧ j = c then v else g i j

/-- The `winner` field of the TypeScript `GameState`: `Player | 0 | 'draw'`. -/
inductive Winner where
  | noWinner
  | player1
  | player2
  | draw
deriving DecidableEq, Repr

/-- Embedding of the TypeScript `GameState` interface (`gameLogic.ts`).
`scores1`/`scores2` embed the record `scores: {1: number; 2: number}`. -/
structure GameState where
  rows : Nat
  cols : Nat
  hLines : Grid
  vLines : Grid
  boxes : Grid
  currentPlayer : Nat
  scores1 : Nat
  scores2 : Nat
  winner : Winner
  moveCount : Nat

/-- `ROWS` constant of `gameLogic.ts`. -/
def ROWS : Nat := 8

/-- `COLS` constant of `gameLogic.ts`. -/
def COLS : Nat := 8

/-- `createInitialState` of `gameLogic.ts`: empty 8×8 board. -/
def createInitialState : GameState where
  rows := ROWS
  cols := COLS
  hLines := fun _ _ => 0
  vLines := fun _ _ => 0
  boxes := fun _ _ => 0
  currentPlayer := 1
  scores1 := 0
  scores2 := 0
  winner := Winner.noWinner
  moveCount := 0

/-- `state.currentPlayer === 1 ? 2 : 1` (turn flip in `applyMove`). -/
def otherPlayer (p : Nat) : Nat := if p = 1 then 2 else 1

/-- Winner selection of `applyMove` lines 96–98: higher score wins, tie is a
draw. -/
def winnerOf (s1 s2 : Nat) : Winner :=
  if s1 > s2 then Winner.player1
  else if s2 > s1 then Winner.player2
  else Winner.draw

/-- Condition of `gameLogic.ts` line 70: the box above a horizontal line at
`(r,c)` is complete (reads the grids *after* the new line was set). -/
def boxAboveDone (hL vL : Grid) (r c : Nat) : Prop :=
  0 < r ∧ hL (r - 1) c ≠ 0 ∧ vL (r - 1) c ≠ 0 ∧ vL (r - 1) (c + 1) ≠ 0

/-- Condition of `gameLogic.ts` line 75: the box below a horizontal line at
`(r,c)` is complete. -/
def boxBelowDone (rows : Nat) (hL vL : Grid) (r c : Nat) : Prop :=
  r < rows - 1 ∧ hL (r + 1) c ≠ 0 ∧ vL r c ≠ 0 ∧ vL r (c + 1) ≠ 0

/-- Condition of `gameLogic.ts` line 81: the box left of a vertical line at
`(r,c)` is complete. -/
def boxLeftDone (hL vL : Grid) (r c : Nat) : Prop :=
  0 < c ∧ vL r (c - 1) ≠ 0 ∧ hL r (c - 1) ≠ 0 ∧ hL (r + 1) (c - 1) ≠ 0

/-- Condition of `gameLogic.ts` line 86: the box right of a vertical line at
`(r,c)` is complete. -/
def boxRightDone (cols : Nat) (hL vL : Grid) (r c : Nat) : Prop :=
  c < cols - 1 ∧ vL r (c + 1) ≠ 0 ∧ hL r c ≠ 0 ∧ hL (r + 1) c ≠ 0

instance (hL vL : Grid) (r c : Nat) : Decidable (boxAboveDone hL vL r c) := by
  unfold boxAboveDone; infer_instance

instance (rows : Nat) (hL vL : Grid) (r c : Nat) :
    Decidable (boxBelowDone rows hL vL r c) := by
  unfold boxBelowDone; infer_instance

instance (hL vL : Grid) (r c : Nat) : Decidable (boxLeftDone hL vL r c) := by
  unfold boxLeftDone; infer_instance

instance (cols : Nat) (hL vL : Grid) (r c : Nat) :
    Decidable (boxRightDone cols hL vL r c) := by
  unfold boxRightDone; infer_instance

/-- The (at most two) boxes completed by the move, in the order the source
checks them (`gameLogic.ts` lines 68–90); `hL`/`vL` are the grids after the
new line was drawn. -/
def completedBoxes (rows cols : Nat) (hL vL : Grid) (r c : Nat) (isH : Bool) :
    List (Nat × Nat) :=
  if isH then
    (if boxAboveDone hL vL r c then [(r - 1, c)] else []) ++
    (if boxBelowDone rows hL vL r c then [(r, c)] else [])
  else
    (if boxLeftDone hL vL r c then [(r, c - 1)] else []) ++
    (if boxRightDone cols hL vL r c then [(r, c)] else [])

/-- Sequentially assign each completed box to the mover
(`newState.boxes[…][…] = state.currentPlayer` at lines 71/76/82/87). -/
def writeBoxes (b : Grid) (cur : Nat) : List (Nat × Nat) → Grid
  | [] => b
  | p :: rest => writeBoxes (setG b p.1 p.2 cur) cur rest

/-- Tail of `applyMove` after the new line was drawn (`gameLogic.ts`
lines 92–105): assign the completed boxes, update scores, detect the winner
or flip the turn, and bump `moveCount`.  `hL`/`vL` are the line grids with
the new line already set, `completed` the list of boxes the move finished. -/
def coreResult (s : GameState) (hL vL : Grid) (completed : List (Nat × Nat)) :
    GameState :=
  let cur := s.currentPlayer
  let newBoxes := writeBoxes s.boxes cur completed
  let n := completed.length
  if 0 < n then
    let s1 := if cur = 1 then s.scores1 + n else s.scores1
    let s2 := if cur = 2 then s.scores2 + n else s.scores2
    let w :=
      if ((s1 : Int) + (s2 : Int)) = ((s.rows : Int) - 1) * ((s.cols : Int) - 1)
      then winnerOf s1 s2 else s.winner
    { s with hLines := hL, vLines := vL, boxes := newBoxes,
             scores1 := s1, scores2 := s2, winner := w,
             moveCount := s.moveCount + 1 }
  else
    { s with hLines := hL, vLines := vL, boxes := newBoxes,
             currentPlayer := otherPlayer cur,
             moveCount := s.moveCount + 1 }

/-- Body of `applyMove` after the precondition checks (`gameLogic.ts`
lines 51–105), at already-validated natural coordinates. -/
def applyMoveCore (s : GameState) (r c : Nat) (isH : Bool) : GameState :=
  let cur := s.currentPlayer
  let hL := if isH then setG s.hLines r c cur else s.hLines
  let vL := if isH then s.vLines else setG s.vLines r c cur
  coreResult s hL vL (completedBoxes s.rows s.cols hL vL r c isH)

/-- `applyMove` of `gameLogic.ts`: rejection (`null`) is `none`.  Move
coordinates are `Int` because the source checks `r < 0`. -/
def applyMove (s : GameState) (r c : Int) (isH : Bool) : Option GameState :=
  if s.winner ≠ Winner.noWinner then none
  else if isH then
    if r < 0 ∨ (s.rows : Int) ≤ r ∨ c < 0 ∨ (s.cols : Int) - 1 ≤ c then none
    else if s.hLines r.toNat c.toNat ≠ 0 then none
    else some (applyMoveCore s r.toNat c.toNat true)
  else
    if r < 0 ∨ (s.rows : Int) - 1 ≤ r ∨ c < 0 ∨ (s.cols : Int) ≤ c then none
    else if s.vLines r.toNat c.toNat ≠ 0 then none
    else some (applyMoveCore s r.toNat c.toNat false)

/-- Number of boxes the move at `(r,c,isH)` completes, i.e. the source's local
`boxesCompleted` counter. -/
def boxesCompletedBy (s : GameState) (r c : Nat) (isH : Bool) : Nat :=
  (completedBoxes s.rows s.cols
    (if isH then setG s.hLines r c s.currentPlayer else s.hLines)
    (if isH then s.vLines else setG s.vLines r c s.currentPlayer)
    r c isH).length

/-!
## RoomSession (`src/src/worker/GameRoom.ts`)

A tracked socket is a pair `(socket id, player tag)`; `getWebSockets('playerN')`
is a filter on the tag, `getTags(ws)` a lookup by id.  Handlers return the new
room value together with the list of `(recipient socket id, message)` sends
they perform, in order.
-/

/-- The TypeScript `ServerMessage` union (`GameRoom.ts` lines 9–15).  Note that
`opponent_disconnected` and `full` carry no game state in the source. -/
inductive ServerMessage where
  | joined (playerIndex : Nat) (gameState : GameState) (ready : Bool)
  | opponentJoined (gameState : GameState)
  | stateMsg (gameState : GameState)
  | opponentDisconnected
  | full
  | errorMsg (message : String)

/-- The game state carried by a server message, if any (`gameState` field of
the corresponding member of the `ServerMessage` union). -/
def carriesGameState : ServerMessage → Option GameState
  | ServerMessage.joined _ g _ => some g
  | ServerMessage.opponentJoined g => some g
  | ServerMessage.stateMsg g => some g
  | _ => none

/-- A parsed client message: `{type:'move', r?, c?, isH?}` (fields may be
absent, hence `Option`), or anything else (`pong`, unknown types) which the
handler ignores. -/
inductive ClientMsg where
  | move (r c : Option Int) (isH : Option Bool)
  | other

/-- One room: the in-memory `this.gameState`, the durable storage slot
`storage.get/put('gameState')`, and the tracked sockets with their tags. -/
structure RoomState where
  gameState : GameState
  storage : Option GameState
  sockets : List (Nat × Nat)

/-- `this.state.getWebSockets('playerN')` — tracked sockets with tag `n`. -/
def socketsTagged (room : RoomState) (n : Nat) : List (Nat × Nat) :=
  room.sockets.filter (fun sck => sck.2 = n)

/-- `this.state.getTags(ws)` — the tags of a tracked socket. -/
def tagsOf (room : RoomState) (ws : Nat) : List Nat :=
  (room.sockets.filter (fun sck => sck.1 = ws)).map (fun sck => sck.2)

/-- The reload-from-storage step both handlers perform
(`const saved = await this.state.storage.get('gameState'); if (saved) …`). -/
def rehydrate (room : RoomState) : RoomState :=
  match room.storage with
  | some g => { room with gameState := g }
  | none => room

/-- `tags.includes('player1') ? 1 : 2` (`GameRoom.ts` line 92). -/
def senderIndex (room : RoomState) (ws : Nat) : Nat :=
  if (tagsOf room ws).contains 1 then 1 else 2

/-- Result of `GameRoom.fetch`: either a WebSocket upgrade that registered the
new socket under a slot, or a plain HTTP error response (status, body). -/
inductive FetchResult where
  | upgraded (playerIndex : Nat)
  | httpError (status : Nat) (body : String)
deriving DecidableEq, Repr

/-- `GameRoom.fetch` (`GameRoom.ts` lines 33–76): connection admission.
`isUpgrade` models the `Upgrade: websocket` header test, `newWs` the fresh
socket id.  Returns the room after admission, the HTTP result, and the
messages sent. -/
def roomFetch (room : RoomState) (isUpgrade : Bool) (newWs : Nat) :
    RoomState × FetchResult × List (Nat × ServerMessage) :=
  if !isUpgrade then
    (room, FetchResult.httpError 426 "Expected WebSocket upgrade", [])
  else
    let p1 := socketsTagged room 1
    let p2 := socketsTagged room 2
    if p1.length = 0 ∨ p2.length = 0 then
      let playerIndex := if p1.length = 0 then 1 else 2
      let room1 := rehydrate room
      let room2 := { room1 with sockets := room1.sockets ++ [(newWs, playerIndex)] }
      let ready := playerIndex = 2 ∧ p1.length = 1
      let notifications :=
        if ready then
          (socketsTagged room2 1).map
            (fun sck => (sck.1, ServerMessage.opponentJoined room2.gameState))
        else []
      (room2, FetchResult.upgraded playerIndex,
       (newWs, ServerMessage.joined playerIndex room2.gameState (decide ready))
         :: notifications)
    else
      (room, FetchResult.httpError 409 "Room is full", [])

/-- `GameRoom.webSocketMessage` (`GameRoom.ts` lines 78–109).  Every rejection
path is a bare `return`: no message is sent and the socket is not closed. -/
def webSocketMessage (room : RoomState) (ws : Nat) (msg : ClientMsg) :
    RoomState × List (Nat × ServerMessage) :=
  match msg with
  | ClientMsg.move r? c? isH? =>
    if (socketsTagged room 1).length = 0 then (room, [])
    else if (socketsTagged room 2).length = 0 then (room, [])
    else
      let playerIndex := senderIndex room ws
      let room1 := rehydrate room
      if playerIndex ≠ room1.gameState.currentPlayer then (room1, [])
      else
        match r?, c?, isH? with
        | some r, some c, some isH =>
          match applyMove room1.gameState r c isH with
          | none => (room1, [])
          | some newState =>
            let room2 := { room1 with gameState := newState, storage := some newState }
            (room2, room2.sockets.map (fun sck => (sck.1, ServerMessage.stateMsg newState)))
        | _, _, _ => (room1, [])
  | ClientMsg.other => (room, [])

/-- `GameRoom.webSocketClose` (`GameRoom.ts` lines 111–113):
`broadcastExcept(ws, {type:'opponent_disconnected'})`.  The room value and
storage are untouched; the message carries no state. -/
def webSocketClose (room : RoomState) (ws : Nat) :
    RoomState × List (Nat × ServerMessage) :=
  (room,
   (room.sockets.filter (fun sck => sck.1 ≠ ws)).map
     (fun sck => (sck.1, ServerMessage.opponentDisconnected)))

/-!
## ClientSessionController (`src/src/client/hooks/useRemoteMultiplayer.ts`)
-/

/-- Connection status of the client controller.  `types.ts` declares
`'idle' | 'connecting' | 'waiting' | 'ready' | 'disconnected'`; the hook
additionally assigns `'reconnecting'`, so the embedding includes it. -/
inductive RemoteStatus where
  | idle
  | connecting
  | waiting
  | ready
  | reconnecting
  | disconnected
deriving DecidableEq, Repr

/-- `MAX_RECONNECT_ATTEMPTS` (`useRemoteMultiplayer.ts` line 11). -/
def MAX_RECONNECT_ATTEMPTS : Nat := 3

/-- `RECONNECT_DELAY_MS` (`useRemoteMultiplayer.ts` line 12). -/
def RECONNECT_DELAY_MS : Nat := 2000

/-- The refs the `onclose`/`onopen` callbacks consult: `statusRef`,
`currentRoomIdRef`, `reconnectAttemptsRef`, and the generation counter
`wsIdRef`. -/
structure ClientConn where
  status : RemoteStatus
  roomId : Option String
  attempts : Nat
  wsId : Nat

/-- `ws.onclose` (`useRemoteMultiplayer.ts` lines 109–132).  Returns the new
controller state and, when a reconnect is scheduled, the target room id and
delay in milliseconds. -/
def onClose (cs : ClientConn) (myId : Nat) : ClientConn × Option (String × Nat) :=
  if cs.wsId ≠ myId then (cs, none)
  else if cs.status = RemoteStatus.idle then (cs, none)
  else if cs.attempts < MAX_RECONNECT_ATTEMPTS ∧
          cs.status ≠ RemoteStatus.disconnected ∧ cs.roomId.isSome then
    ({ cs with attempts := cs.attempts + 1, status := RemoteStatus.reconnecting },
     cs.roomId.map (fun rid => (rid, RECONNECT_DELAY_MS)))
  else
    ({ cs with status := RemoteStatus.disconnected }, none)

/-- `ws.onopen` (`useRemoteMultiplayer.ts` lines 60–63): reset the attempt
counter when the generation still matches. -/
def onOpen (cs : ClientConn) (myId : Nat) : ClientConn :=
  if cs.wsId ≠ myId then cs else { cs with attempts := 0 }

/-!
## Concrete demonstration values (used to witness the theorems below)
-/

/-- The state after one accepted move on the empty board: the horizontal line
at `(0,0)`, drawn by player 1. -/
def demoNext : GameState := applyMoveCore createInitialState 0 0 true

/-- A room with only player 1 connected (socket id 0). -/
def demoRoomOne : RoomState :=
  { gameState := createInitialState, storage := none, sockets := [(0, 1)] }

/-- A room with both slots occupied (socket ids 0 and 1). -/
def demoRoomFull : RoomState :=
  { gameState := createInitialState, storage := none, sockets := [(0, 1), (1, 2)] }

/-- A fresh, empty room. -/
def demoRoomEmpty : RoomState :=
  { gameState := createInitialState, storage := none, sockets := [] }

/-- A connected client controller in a known room. -/
def demoConn : ClientConn :=
  { status := RemoteStatus.ready, roomId := some "JKLMNP", attempts := 0, wsId := 5 }

/-!
## Engine lemmas: grids, box counting, box writes
-/

theorem setG_same (g : Grid) (r c v : Nat) : setG g r c v r c = v := by
  simp [setG]

theorem setG_ne (g : Grid) (r c v i j : Nat) (h : ¬(i = r ∧ j = c)) :
    setG g r c v i j = g i j := by
  simp only [setG]
  rw [if_neg h]

theorem setG_mono (g : Grid) (r c v i j : Nat) (hv : v ≠ 0) (h : g i j ≠ 0) :
    setG g r c v i j ≠ 0 := by
  simp only [setG]
  split
  · exact hv
  · exact h

theorem prod_eq_of {p q : Nat × Nat} (h1 : p.1 = q.1) (h2 : p.2 = q.2) :
    p = q := by
  cases p; cases q; cases h1; cases h2; rfl

/-- Contribution of one box cell to the completed-box count. -/
def boxVal (b : Grid) (p : Nat × Nat) : Nat := if b p.1 p.2 ≠ 0 then 1 else 0

/-- Number of completed (non-zero) cells of the 7×7 box matrix. -/
def nboxes (b : Grid) : Nat :=
  ∑ p ∈ Finset.range 7 ×ˢ Finset.range 7, boxVal b p

theorem boxVal_le_one (b : Grid) (p : Nat × Nat) : boxVal b p ≤ 1 := by
  unfold boxVal
  split <;> omega

theorem nboxes_le (b : Grid) : nboxes b ≤ 49 := by
  have h := Finset.sum_le_card_nsmul (Finset.range 7 ×ˢ Finset.range 7)
    (boxVal b) 1 (fun p _ => boxVal_le_one b p)
  simpa [Finset.card_product] using h

theorem nboxes_setG (b : Grid) (i j v : Nat) (hi : i < 7) (hj : j < 7)
    (h0 : b i j = 0) (hv : v ≠ 0) : nboxes (setG b i j v) = nboxes b + 1 := by
  have hmem : (i, j) ∈ Finset.range 7 ×ˢ Finset.range 7 := by
    simp [Finset.mem_product, hi, hj]
  have h1 := Finset.add_sum_erase _ (boxVal (setG b i j v)) hmem
  have h2 := Finset.add_sum_erase _ (boxVal b) hmem
  have hcongr :
      ∑ p ∈ (Finset.range 7 ×ˢ Finset.range 7).erase (i, j),
        boxVal (setG b i j v) p
      = ∑ p ∈ (Finset.range 7 ×ˢ Finset.range 7).erase (i, j), boxVal b p := by
    refine Finset.sum_congr rfl (fun p hp => ?_)
    have hne : p ≠ (i, j) := Finset.ne_of_mem_erase hp
    have hnij : ¬(p.1 = i ∧ p.2 = j) := by
      rintro ⟨ha, hb⟩
      exact hne (prod_eq_of ha hb)
    unfold boxVal
    rw [setG_ne _ _ _ _ _ _ hnij]
  have hv1 : boxVal (setG b i j v) (i, j) = 1 := by
    unfold boxVal
    simp only [setG_same]
    rw [if_pos hv]
  have hv0 : boxVal b (i, j) = 0 := by
    unfold boxVal
    simp [h0]
  rw [hv1, hcongr] at h1
  rw [hv0] at h2
  unfold nboxes
  omega

theorem writeBoxes_frame (cur : Nat) (L : List (Nat × Nat)) :
    ∀ (b : Grid) (i j : Nat), (∀ p ∈ L, ¬(p.1 = i ∧ p.2 = j)) →
      writeBoxes b cur L i j = b i j := by
  induction L with
  | nil => intro b i j _; rfl
  | cons q rest ih =>
    intro b i j h
    show writeBoxes (setG b q.1 q.2 cur) cur rest i j = b i j
    rw [ih _ _ _ (fun p hp => h p (List.mem_cons_of_mem q hp))]
    exact setG_ne _ _ _ _ _ _
      (fun hc => h q (List.mem_cons_self q rest) ⟨hc.1.symm, hc.2.symm⟩)

theorem writeBoxes_nboxes (cur : Nat) (hcur : cur ≠ 0) (L : List (Nat × Nat)) :
    ∀ b : Grid, (∀ p ∈ L, p.1 < 7 ∧ p.2 < 7 ∧ b p.1 p.2 = 0) →
      L.Pairwise (· ≠ ·) →
      nboxes (writeBoxes b cur L) = nboxes b + L.length := by
  induction L with
  | nil => intro b _ _; simp [writeBoxes]
  | cons q rest ih =>
    intro b hmem hpair
    obtain ⟨hq1, hq2, hq0⟩ := hmem q (List.mem_cons_self q rest)
    rw [List.pairwise_cons] at hpair
    have hrest : ∀ p ∈ rest, p.1 < 7 ∧ p.2 < 7 ∧ setG b q.1 q.2 cur p.1 p.2 = 0 := by
      intro p hp
      obtain ⟨h1, h2, h3⟩ := hmem p (List.mem_cons_of_mem q hp)
      refine ⟨h1, h2, ?_⟩
      have hne : ¬(p.1 = q.1 ∧ p.2 = q.2) := by
        rintro ⟨ha, hb⟩
        exact hpair.1 p hp (prod_eq_of ha hb).symm
      rw [setG_ne _ _ _ _ _ _ hne]
      exact h3
    show nboxes (writeBoxes (setG b q.1 q.2 cur) cur rest) = nboxes b + (q :: rest).length
    rw [ih _ hrest hpair.2, nboxes_setG b q.1 q.2 cur hq1 hq2 hq0 hcur,
        List.length_cons]
    omega

theorem mem_cond_singleton {P : Prop} [Decidable P] {q a : Nat × Nat} :
    (a ∈ if P then [q] else []) ↔ P ∧ a = q := by
  by_cases h : P <;> simp [h]

theorem length_cond_singleton {P : Prop} [Decidable P] (q : Nat × Nat) :
    (if P then [q] else []).length ≤ 1 := by
  by_cases h : P <;> simp [h]

theorem completedBoxes_length_le (rows cols : Nat) (hL vL : Grid) (r c : Nat)
    (isH : Bool) : (completedBoxes rows cols hL vL r c isH).length ≤ 2 := by
  unfold completedBoxes
  cases isH <;> simp only [Bool.false_eq_true, if_false, if_true,
    List.length_append]
  · have h1 := length_cond_singleton (P := boxLeftDone hL vL r c) (r, c - 1)
    have h2 := length_cond_singleton (P := boxRightDone cols hL vL r c) (r, c)
    omega
  · have h1 := length_cond_singleton (P := boxAboveDone hL vL r c) (r - 1, c)
    have h2 := length_cond_singleton (P := boxBelowDone rows hL vL r c) (r, c)
    omega

theorem winnerOf_ne_noWinner (a b : Nat) : winnerOf a b ≠ Winner.noWinner := by
  unfold winnerOf
  split_ifs <;> simp

/-!
## Structural facts about `coreResult`
-/

theorem coreResult_base (s : GameState) (hL vL : Grid) (L : List (Nat × Nat)) :
    (coreResult s hL vL L).hLines = hL ∧
    (coreResult s hL vL L).vLines = vL ∧
    (coreResult s hL vL L).boxes = writeBoxes s.boxes s.currentPlayer L ∧
    (coreResult s hL vL L).moveCount = s.moveCount + 1 ∧
    (coreResult s hL vL L).rows = s.rows ∧
    (coreResult s hL vL L).cols = s.cols := by
  unfold coreResult
  by_cases h : 0 < L.length <;> simp [h]

theorem coreResult_player_pos (s : GameState) (hL vL : Grid)
    (L : List (Nat × Nat)) (h : 0 < L.length) :
    (coreResult s hL vL L).currentPlayer = s.currentPlayer := by
  unfold coreResult
  simp [h]

theorem coreResult_player_zero (s : GameState) (hL vL : Grid)
    (L : List (Nat × Nat)) (h : L.length = 0) :
    (coreResult s hL vL L).currentPlayer = otherPlayer s.currentPlayer := by
  unfold coreResult
  simp [h]

theorem coreResult_scores (s : GameState) (hL vL : Grid) (L : List (Nat × Nat))
    (hp : s.currentPlayer = 1 ∨ s.currentPlayer = 2) :
    (coreResult s hL vL L).scores1 + (coreResult s hL vL L).scores2
      = s.scores1 + s.scores2 + L.length := by
  unfold coreResult
  by_cases h : 0 < L.length
  · rcases hp with hp | hp <;> simp [h, hp] <;> omega
  · have h0 : L.length = 0 := by omega
    simp [h, h0]

theorem coreResult_winner_zero (s : GameState) (hL vL : Grid)
    (L : List (Nat × Nat)) (h : L.length = 0) :
    (coreResult s hL vL L).winner = s.winner := by
  unfold coreResult
  simp [h]

theorem coreResult_scores1_zero (s : GameState) (hL vL : Grid)
    (L : List (Nat × Nat)) (h : L.length = 0) :
    (coreResult s hL vL L).scores1 = s.scores1 := by
  unfold coreResult
  simp [h]

theorem coreResult_scores2_zero (s : GameState) (hL vL : Grid)
    (L : List (Nat × Nat)) (h : L.length = 0) :
    (coreResult s hL vL L).scores2 = s.scores2 := by
  unfold coreResult
  simp [h]

theorem coreResult_winner_pos (s : GameState) (hL vL : Grid)
    (L : List (Nat × Nat)) (h : 0 < L.length) :
    (coreResult s hL vL L).winner =
      if (((coreResult s hL vL L).scores1 : Int) + ((coreResult s hL vL L).scores2 : Int)
            = ((s.rows : Int) - 1) * ((s.cols : Int) - 1))
      then winnerOf (coreResult s hL vL L).scores1 (coreResult s hL vL L).scores2
      else s.winner := by
  unfold coreResult
  simp [h]

/-!
## The engine invariant (§3 of the spec, for the fixed 8×8 configuration)
-/

/-- Data-model invariants maintained by the engine on the 8×8 board:
dimensions, a well-formed current player, scores counting exactly the
non-zero box cells, every completed box bounded by four drawn lines, and
the winner flag set exactly at the full board with the documented value. -/
structure StateInv (s : GameState) : Prop where
  rows_eq : s.rows = 8
  cols_eq : s.cols = 8
  player_ok : s.currentPlayer = 1 ∨ s.currentPlayer = 2
  score_eq : s.scores1 + s.scores2 = nboxes s.boxes
  box_lines : ∀ i j : Nat, i < 7 → j < 7 → s.boxes i j ≠ 0 →
    s.hLines i j ≠ 0 ∧ s.hLines (i + 1) j ≠ 0 ∧
    s.vLines i j ≠ 0 ∧ s.vLines i (j + 1) ≠ 0
  winner_iff : s.winner ≠ Winner.noWinner ↔ s.scores1 + s.scores2 = 49
  winner_val : s.winner ≠ Winner.noWinner →
    s.winner = winnerOf s.scores1 s.scores2

theorem inv_init : StateInv createInitialState := by
  refine ⟨rfl, rfl, Or.inl rfl, ?_, ?_, ?_, ?_⟩
  · simp [createInitialState, nboxes, boxVal]
  · intro i j _ _ hbox
    simp [createInitialState] at hbox
  · constructor
    · intro h
      exact absurd rfl h
    · intro h
      simp [createInitialState] at h
  · intro h
    exact absurd rfl h

theorem coreResult_inv (s : GameState) (hL vL : Grid) (L : List (Nat × Nat))
    (inv : StateInv s) (hw : s.winner = Winner.noWinner)
    (hmonoH : ∀ i j, s.hLines i j ≠ 0 → hL i j ≠ 0)
    (hmonoV : ∀ i j, s.vLines i j ≠ 0 → vL i j ≠ 0)
    (hLmem : ∀ p ∈ L, p.1 < 7 ∧ p.2 < 7 ∧ s.boxes p.1 p.2 = 0 ∧
        hL p.1 p.2 ≠ 0 ∧ hL (p.1 + 1) p.2 ≠ 0 ∧
        vL p.1 p.2 ≠ 0 ∧ vL p.1 (p.2 + 1) ≠ 0)
    (hpair : L.Pairwise (· ≠ ·)) :
    StateInv (coreResult s hL vL L) := by
  obtain ⟨hbH, hbV, hbB, _, hbR, hbC⟩ := coreResult_base s hL vL L
  have hcur0 : s.currentPlayer ≠ 0 := by
    rcases inv.player_ok with h | h <;> simp [h]
  have hnb : nboxes (writeBoxes s.boxes s.currentPlayer L)
      = nboxes s.boxes + L.length :=
    writeBoxes_nboxes _ hcur0 L s.boxes
      (fun p hp => ⟨(hLmem p hp).1, (hLmem p hp).2.1, (hLmem p hp).2.2.1⟩) hpair
  have hsum : (coreResult s hL vL L).scores1 + (coreResult s hL vL L).scores2
      = s.scores1 + s.scores2 + L.length := coreResult_scores s hL vL L inv.player_ok
  have hscore : (coreResult s hL vL L).scores1 + (coreResult s hL vL L).scores2
      = nboxes (coreResult s hL vL L).boxes := by
    rw [hsum, hbB, hnb, inv.score_eq]
  have hboxlines : ∀ i j : Nat, i < 7 → j < 7 →
      (coreResult s hL vL L).boxes i j ≠ 0 →
      (coreResult s hL vL L).hLines i j ≠ 0 ∧
      (coreResult s hL vL L).hLines (i + 1) j ≠ 0 ∧
      (coreResult s hL vL L).vLines i j ≠ 0 ∧
      (coreResult s hL vL L).vLines i (j + 1) ≠ 0 := by
    intro i j hi hj hb
    rw [hbH, hbV]
    by_cases hm : (i, j) ∈ L
    · have hfacts := hLmem _ hm
      exact ⟨hfacts.2.2.2.1, hfacts.2.2.2.2.1,
             hfacts.2.2.2.2.2.1, hfacts.2.2.2.2.2.2⟩
    · rw [hbB, writeBoxes_frame _ L s.boxes i j
        (fun p hp hc => hm (prod_eq_of (q := (i, j)) hc.1 hc.2 ▸ hp))] at hb
      obtain ⟨l1, l2, l3, l4⟩ := inv.box_lines i j hi hj hb
      exact ⟨hmonoH _ _ l1, hmonoH _ _ l2, hmonoV _ _ l3, hmonoV _ _ l4⟩
  by_cases hn : 0 < L.length
  · have hwin := coreResult_winner_pos s hL vL L hn
    by_cases hq : (((coreResult s hL vL L).scores1 : Int)
        + ((coreResult s hL vL L).scores2 : Int)
        = ((s.rows : Int) - 1) * ((s.cols : Int) - 1))
    · rw [if_pos hq] at hwin
      have h49 : (coreResult s hL vL L).scores1
          + (coreResult s hL vL L).scores2 = 49 := by
        rw [inv.rows_eq, inv.cols_eq] at hq
        push_cast at hq
        omega
      refine ⟨hbR.trans inv.rows_eq, hbC.trans inv.cols_eq, ?_, hscore,
        hboxlines, ?_, ?_⟩
      · rw [coreResult_player_pos s hL vL L hn]
        exact inv.player_ok
      · exact ⟨fun _ => h49, fun _ => hwin ▸ winnerOf_ne_noWinner _ _⟩
      · intro _
        exact hwin
    · rw [if_neg hq] at hwin
      have h49 : (coreResult s hL vL L).scores1
          + (coreResult s hL vL L).scores2 ≠ 49 := by
        intro hq'
        apply hq
        rw [inv.rows_eq, inv.cols_eq]
        push_cast
        omega
      refine ⟨hbR.trans inv.rows_eq, hbC.trans inv.cols_eq, ?_, hscore,
        hboxlines, ?_, ?_⟩
      · rw [coreResult_player_pos s hL vL L hn]
        exact inv.player_ok
      · rw [hwin, hw]
        constructor
        · intro habs
          exact absurd rfl habs
        · intro habs
          exact absurd habs h49
      · intro habs
        rw [hwin, hw] at habs
        exact absurd rfl habs
  · have h0 : L.length = 0 := by omega
    have hwin := coreResult_winner_zero s hL vL L h0
    have hsum0 : (coreResult s hL vL L).scores1 + (coreResult s hL vL L).scores2
        = s.scores1 + s.scores2 := by
      rw [hsum, h0]
      omega
    refine ⟨hbR.trans inv.rows_eq, hbC.trans inv.cols_eq, ?_, hscore,
      hboxlines, ?_, ?_⟩
    · rw [coreResult_player_zero s hL vL L h0]
      rcases inv.player_ok with h | h <;> simp [otherPlayer, h]
    · rw [hwin, hsum0]
      exact inv.winner_iff
    · intro habs
      rw [hwin] at habs ⊢
      rw [coreResult_scores1_zero s hL vL L h0, coreResult_scores2_zero s hL vL L h0]
      exact inv.winner_val habs

/-!
## Per-orientation facts about the completed-box list
-/

theorem mem_completedBoxes_true {rows cols : Nat} {hL vL : Grid} {r c : Nat}
    {p : Nat × Nat} :
    p ∈ completedBoxes rows cols hL vL r c true ↔
      (boxAboveDone hL vL r c ∧ p = (r - 1, c)) ∨
      (boxBelowDone rows hL vL r c ∧ p = (r, c)) := by
  show p ∈ (if boxAboveDone hL vL r c then [(r - 1, c)] else []) ++
      (if boxBelowDone rows hL vL r c then [(r, c)] else []) ↔ _
  rw [List.mem_append, mem_cond_singleton, mem_cond_singleton]

theorem mem_completedBoxes_false {rows cols : Nat} {hL vL : Grid} {r c : Nat}
    {p : Nat × Nat} :
    p ∈ completedBoxes rows cols hL vL r c false ↔
      (boxLeftDone hL vL r c ∧ p = (r, c - 1)) ∨
      (boxRightDone cols hL vL r c ∧ p = (r, c)) := by
  show p ∈ (if boxLeftDone hL vL r c then [(r, c - 1)] else []) ++
      (if boxRightDone cols hL vL r c then [(r, c)] else []) ↔ _
  rw [List.mem_append, mem_cond_singleton, mem_cond_singleton]

theorem completedBoxes_pairwise (rows cols : Nat) (hL vL : Grid) (r c : Nat)
    (isH : Bool) : (completedBoxes rows cols hL vL r c isH).Pairwise (· ≠ ·) := by
  cases isH
  · show ((if boxLeftDone hL vL r c then [(r, c - 1)] else []) ++
      (if boxRightDone cols hL vL r c then [(r, c)] else [])).Pairwise (· ≠ ·)
    rw [List.pairwise_append]
    refine ⟨?_, ?_, ?_⟩
    · by_cases h : boxLeftDone hL vL r c <;> simp [h]
    · by_cases h : boxRightDone cols hL vL r c <;> simp [h]
    · intro a ha b hb
      rw [mem_cond_singleton] at ha hb
      obtain ⟨hA, rfl⟩ := ha
      obtain ⟨_, rfl⟩ := hb
      have h0 := hA.1
      intro heq
      have := congrArg Prod.snd heq
      simp at this
      omega
  · show ((if boxAboveDone hL vL r c then [(r - 1, c)] else []) ++
      (if boxBelowDone rows hL vL r c then [(r, c)] else [])).Pairwise (· ≠ ·)
    rw [List.pairwise_append]
    refine ⟨?_, ?_, ?_⟩
    · by_cases h : boxAboveDone hL vL r c <;> simp [h]
    · by_cases h : boxBelowDone rows hL vL r c <;> simp [h]
    · intro a ha b hb
      rw [mem_cond_singleton] at ha hb
      obtain ⟨hA, rfl⟩ := ha
      obtain ⟨_, rfl⟩ := hb
      have h0 := hA.1
      intro heq
      have := congrArg Prod.fst heq
      simp at this
      omega

theorem completedH_facts (s : GameState) (inv : StateInv s) (rn cn : Nat)
    (hr : rn < 8) (hc : cn < 7) (h0 : s.hLines rn cn = 0) :
    ∀ p ∈ completedBoxes s.rows s.cols (setG s.hLines rn cn s.currentPlayer)
        s.vLines rn cn true,
      p.1 < 7 ∧ p.2 < 7 ∧ s.boxes p.1 p.2 = 0 ∧
      setG s.hLines rn cn s.currentPlayer p.1 p.2 ≠ 0 ∧
      setG s.hLines rn cn s.currentPlayer (p.1 + 1) p.2 ≠ 0 ∧
      s.vLines p.1 p.2 ≠ 0 ∧ s.vLines p.1 (p.2 + 1) ≠ 0 := by
  have hcur0 : s.currentPlayer ≠ 0 := by
    rcases inv.player_ok with h | h <;> simp [h]
  intro p hp
  rw [mem_completedBoxes_true] at hp
  rcases hp with ⟨hA, rfl⟩ | ⟨hB, rfl⟩
  · obtain ⟨hr0, htop, hvl, hvr⟩ := hA
    have heq : rn - 1 + 1 = rn := by omega
    refine ⟨by omega, hc, ?_, htop, ?_, hvl, hvr⟩
    · by_contra hbz
      have hbl := inv.box_lines (rn - 1) cn (by omega) hc hbz
      rw [heq] at hbl
      exact hbl.2.1 h0
    · rw [heq, setG_same]
      exact hcur0
  · obtain ⟨hrb, hbot, hvl, hvr⟩ := hB
    have hrn7 : rn < 7 := by rw [inv.rows_eq] at hrb; omega
    refine ⟨hrn7, hc, ?_, ?_, hbot, hvl, hvr⟩
    · by_contra hbz
      exact (inv.box_lines rn cn hrn7 hc hbz).1 h0
    · rw [setG_same]
      exact hcur0

theorem completedV_facts (s : GameState) (inv : StateInv s) (rn cn : Nat)
    (hr : rn < 7) (hc : cn < 8) (h0 : s.vLines rn cn = 0) :
    ∀ p ∈ completedBoxes s.rows s.cols s.hLines
        (setG s.vLines rn cn s.currentPlayer) rn cn false,
      p.1 < 7 ∧ p.2 < 7 ∧ s.boxes p.1 p.2 = 0 ∧
      s.hLines p.1 p.2 ≠ 0 ∧ s.hLines (p.1 + 1) p.2 ≠ 0 ∧
      setG s.vLines rn cn s.currentPlayer p.1 p.2 ≠ 0 ∧
      setG s.vLines rn cn s.currentPlayer p.1 (p.2 + 1) ≠ 0 := by
  have hcur0 : s.currentPlayer ≠ 0 := by
    rcases inv.player_ok with h | h <;> simp [h]
  intro p hp
  rw [mem_completedBoxes_false] at hp
  rcases hp with ⟨hA, rfl⟩ | ⟨hB, rfl⟩
  · obtain ⟨hc0, hvleft, htop, hbot⟩ := hA
    have heq : cn - 1 + 1 = cn := by omega
    refine ⟨hr, by omega, ?_, htop, hbot, hvleft, ?_⟩
    · by_contra hbz
      have hbl := inv.box_lines rn (cn - 1) hr (by omega) hbz
      rw [heq] at hbl
      exact hbl.2.2.2 h0
    · rw [heq, setG_same]
      exact hcur0
  · obtain ⟨hcb, hvright, htop, hbot⟩ := hB
    have hcn7 : cn < 7 := by rw [inv.cols_eq] at hcb; omega
    refine ⟨hr, hcn7, ?_, htop, hbot, ?_, hvright⟩
    · by_contra hbz
      exact (inv.box_lines rn cn hr hcn7 hbz).2.2.1 h0
    · rw [setG_same]
      exact hcur0

theorem applyMoveCore_inv_true (s : GameState) (inv : StateInv s) (rn cn : Nat)
    (hr : rn < 8) (hc : cn < 7) (h0 : s.hLines rn cn = 0)
    (hw : s.winner = Winner.noWinner) :
    StateInv (applyMoveCore s rn cn true) := by
  have hcur0 : s.currentPlayer ≠ 0 := by
    rcases inv.player_ok with h | h <;> simp [h]
  show StateInv (coreResult s (setG s.hLines rn cn s.currentPlayer) s.vLines
    (completedBoxes s.rows s.cols (setG s.hLines rn cn s.currentPlayer)
      s.vLines rn cn true))
  exact coreResult_inv s _ _ _ inv hw
    (fun i j h => setG_mono _ _ _ _ _ _ hcur0 h)
    (fun i j h => h)
    (completedH_facts s inv rn cn hr hc h0)
    (completedBoxes_pairwise _ _ _ _ _ _ _)

theorem applyMoveCore_inv_false (s : GameState) (inv : StateInv s) (rn cn : Nat)
    (hr : rn < 7) (hc : cn < 8) (h0 : s.vLines rn cn = 0)
    (hw : s.winner = Winner.noWinner) :
    StateInv (applyMoveCore s rn cn false) := by
  have hcur0 : s.currentPlayer ≠ 0 := by
    rcases inv.player_ok with h | h <;> simp [h]
  show StateInv (coreResult s s.hLines (setG s.vLines rn cn s.currentPlayer)
    (completedBoxes s.rows s.cols s.hLines
      (setG s.vLines rn cn s.currentPlayer) rn cn false))
  exact coreResult_inv s _ _ _ inv hw
    (fun i j h => h)
    (fun i j h => setG_mono _ _ _ _ _ _ hcur0 h)
    (completedV_facts s inv rn cn hr hc h0)
    (completedBoxes_pairwise _ _ _ _ _ _ _)

/-!
## Accepted moves: elimination, reachability
-/

theorem applyMove_elim {s s' : GameState} {r c : Int} {isH : Bool}
    (h : applyMove s r c isH = some s') :
    s.winner = Winner.noWinner ∧ s' = applyMoveCore s r.toNat c.toNat isH ∧
    (isH = true → 0 ≤ r ∧ r < (s.rows : Int) ∧ 0 ≤ c ∧ c < (s.cols : Int) - 1 ∧
      s.hLines r.toNat c.toNat = 0) ∧
    (isH = false → 0 ≤ r ∧ r < (s.rows : Int) - 1 ∧ 0 ≤ c ∧ c < (s.cols : Int) ∧
      s.vLines r.toNat c.toNat = 0) := by
  unfold applyMove at h
  by_cases hw : s.winner ≠ Winner.noWinner
  · rw [if_pos hw] at h
    cases h
  · rw [if_neg hw] at h
    push_neg at hw
    cases isH
    · simp only [Bool.false_eq_true, if_false] at h
      by_cases hb : r < 0 ∨ (s.rows : Int) - 1 ≤ r ∨ c < 0 ∨ (s.cols : Int) ≤ c
      · rw [if_pos hb] at h
        cases h
      · rw [if_neg hb] at h
        by_cases hd : s.vLines r.toNat c.toNat ≠ 0
        · rw [if_pos hd] at h
          cases h
        · rw [if_neg hd] at h
          push_neg at hb hd
          injection h with h'
          refine ⟨hw, h'.symm, ?_, ?_⟩
          · intro habs
            exact absurd habs (by simp)
          · intro _
            exact ⟨hb.1, hb.2.1, hb.2.2.1, hb.2.2.2, hd⟩
    · simp only [if_true] at h
      by_cases hb : r < 0 ∨ (s.rows : Int) ≤ r ∨ c < 0 ∨ (s.cols : Int) - 1 ≤ c
      · rw [if_pos hb] at h
        cases h
      · rw [if_neg hb] at h
        by_cases hd : s.hLines r.toNat c.toNat ≠ 0
        · rw [if_pos hd] at h
          cases h
        · rw [if_neg hd] at h
          push_neg at hb hd
          injection h with h'
          refine ⟨hw, h'.symm, ?_, ?_⟩
          · intro _
            exact ⟨hb.1, hb.2.1, hb.2.2.1, hb.2.2.2, hd⟩
          · intro habs
            exact absurd habs (by simp)

theorem inv_step {s s' : GameState} {r c : Int} {isH : Bool} (inv : StateInv s)
    (h : applyMove s r c isH = some s') : StateInv s' := by
  obtain ⟨hw, hs', hT, hF⟩ := applyMove_elim h
  cases isH
  · obtain ⟨h1, h2, h3, h4, h5⟩ := hF rfl
    have hr : r.toNat < 7 := by
      rw [inv.rows_eq] at h2
      omega
    have hc : c.toNat < 8 := by
      rw [inv.cols_eq] at h4
      omega
    rw [hs']
    exact applyMoveCore_inv_false s inv r.toNat c.toNat hr hc h5 hw
  · obtain ⟨h1, h2, h3, h4, h5⟩ := hT rfl
    have hr : r.toNat < 8 := by
      rw [inv.rows_eq] at h2
      omega
    have hc : c.toNat < 7 := by
      rw [inv.cols_eq] at h4
      omega
    rw [hs']
    exact applyMoveCore_inv_true s inv r.toNat c.toNat hr hc h5 hw

/-- States reachable from `createInitialState` by accepted `applyMove` calls. -/
inductive Reachable : GameState → Prop where
  | init : Reachable createInitialState
  | step {s : GameState} (r c : Int) (isH : Bool) {s' : GameState} :
      Reachable s → applyMove s r c isH = some s' → Reachable s'

theorem reachable_inv {s : GameState} (h : Reachable s) : StateInv s := by
  induction h with
  | init => exact inv_init
  | step r c isH hs hm ih => exact inv_step ih hm

/-!
## Rejection helpers for `applyMove`
-/

theorem applyMove_none_of_winner (s : GameState) (r c : Int) (isH : Bool)
    (hw : s.winner ≠ Winner.noWinner) : applyMove s r c isH = none := by
  unfold applyMove
  rw [if_pos hw]

theorem applyMove_none_of_oob_true (s : GameState) (r c : Int)
    (hb : r < 0 ∨ (s.rows : Int) ≤ r ∨ c < 0 ∨ (s.cols : Int) - 1 ≤ c) :
    applyMove s r c true = none := by
  unfold applyMove
  by_cases hw : s.winner ≠ Winner.noWinner
  · rw [if_pos hw]
  · rw [if_neg hw]
    simp only [if_true]
    rw [if_pos hb]

theorem applyMove_none_of_oob_false (s : GameState) (r c : Int)
    (hb : r < 0 ∨ (s.rows : Int) - 1 ≤ r ∨ c < 0 ∨ (s.cols : Int) ≤ c) :
    applyMove s r c false = none := by
  unfold applyMove
  by_cases hw : s.winner ≠ Winner.noWinner
  · rw [if_pos hw]
  · rw [if_neg hw]
    simp only [Bool.false_eq_true, if_false]
    rw [if_pos hb]

theorem applyMove_none_of_drawn_true (s : GameState) (r c : Int)
    (hd : s.hLines r.toNat c.toNat ≠ 0) : applyMove s r c true = none := by
  unfold applyMove
  by_cases hw : s.winner ≠ Winner.noWinner
  · rw [if_pos hw]
  · rw [if_neg hw]
    simp only [if_true]
    by_cases hb : r < 0 ∨ (s.rows : Int) ≤ r ∨ c < 0 ∨ (s.cols : Int) - 1 ≤ c
    · rw [if_pos hb]
    · rw [if_neg hb, if_pos hd]

theorem applyMove_none_of_drawn_false (s : GameState) (r c : Int)
    (hd : s.vLines r.toNat c.toNat ≠ 0) : applyMove s r c false = none := by
  unfold applyMove
  by_cases hw : s.winner ≠ Winner.noWinner
  · rw [if_pos hw]
  · rw [if_neg hw]
    simp only [Bool.false_eq_true, if_false]
    by_cases hb : r < 0 ∨ (s.rows : Int) - 1 ≤ r ∨ c < 0 ∨ (s.cols : Int) ≤ c
    · rw [if_pos hb]
    · rw [if_neg hb, if_pos hd]

theorem applyMoveCore_eq_true (s : GameState) (r c : Nat) :
    applyMoveCore s r c true
      = coreResult s (setG s.hLines r c s.currentPlayer) s.vLines
          (completedBoxes s.rows s.cols (setG s.hLines r c s.currentPlayer)
            s.vLines r c true) := rfl

theorem applyMoveCore_eq_false (s : GameState) (r c : Nat) :
    applyMoveCore s r c false
      = coreResult s s.hLines (setG s.vLines r c s.currentPlayer)
          (completedBoxes s.rows s.cols s.hLines
            (setG s.vLines r c s.currentPlayer) r c false) := rfl

theorem boxesCompletedBy_true (s : GameState) (r c : Nat) :
    boxesCompletedBy s r c true
      = (completedBoxes s.rows s.cols (setG s.hLines r c s.currentPlayer)
          s.vLines r c true).length := rfl

theorem boxesCompletedBy_false (s : GameState) (r c : Nat) :
    boxesCompletedBy s r c false
      = (completedBoxes s.rows s.cols s.hLines
          (setG s.vLines r c s.currentPlayer) r c false).length := rfl

/-!
## Claim theorems: the game engine
-/

/-- C1: in every state reachable by accepted `applyMove` calls,
`scores[1] + scores[2]` never exceeds `(rows-1)*(cols-1)`; the winner flag is
non-zero exactly when the sum equals that total; and when set it is the player
with the higher score, or the draw marker on a tie. -/
theorem claim_C1_score_winner (s : GameState) (h : Reachable s) :
    s.scores1 + s.scores2 ≤ (s.rows - 1) * (s.cols - 1) ∧
    (s.winner ≠ Winner.noWinner ↔
      s.scores1 + s.scores2 = (s.rows - 1) * (s.cols - 1)) ∧
    (s.winner ≠ Winner.noWinner → s.winner = winnerOf s.scores1 s.scores2) := by
  have inv := reachable_inv h
  rw [inv.rows_eq, inv.cols_eq]
  have h49 : (8 - 1) * (8 - 1) = 49 := by norm_num
  rw [h49]
  refine ⟨?_, inv.winner_iff, inv.winner_val⟩
  rw [inv.score_eq]
  exact nboxes_le _

/-- Witness for C1 at the initial state. -/
theorem claim_C1_witness :
    createInitialState.scores1 + createInitialState.scores2
      ≤ (createInitialState.rows - 1) * (createInitialState.cols - 1) ∧
    (createInitialState.winner ≠ Winner.noWinner ↔
      createInitialState.scores1 + createInitialState.scores2
        = (createInitialState.rows - 1) * (createInitialState.cols - 1)) ∧
    (createInitialState.winner ≠ Winner.noWinner →
      createInitialState.winner
        = winnerOf createInitialState.scores1 createInitialState.scores2) :=
  claim_C1_score_winner createInitialState Reachable.init

/-- C2: `applyMove` rejects (returns `none`) when the winner flag is already
set, when the coordinates are out of bounds for the chosen orientation, or
when the targeted line cell is already drawn.  The embedding is pure, so the
input state is untouched by construction, mirroring the source which only
builds a fresh object. -/
theorem claim_C2_reject_paths (s : GameState) (r c : Int) (isH : Bool) :
    (s.winner ≠ Winner.noWinner → applyMove s r c isH = none) ∧
    (isH = true → (r < 0 ∨ (s.rows : Int) ≤ r ∨ c < 0 ∨ (s.cols : Int) - 1 ≤ c) →
      applyMove s r c isH = none) ∧
    (isH = false → (r < 0 ∨ (s.rows : Int) - 1 ≤ r ∨ c < 0 ∨ (s.cols : Int) ≤ c) →
      applyMove s r c isH = none) ∧
    (isH = true → s.hLines r.toNat c.toNat ≠ 0 → applyMove s r c isH = none) ∧
    (isH = false → s.vLines r.toNat c.toNat ≠ 0 → applyMove s r c isH = none) := by
  refine ⟨applyMove_none_of_winner s r c isH, ?_, ?_, ?_, ?_⟩
  · rintro rfl hb
    exact applyMove_none_of_oob_true s r c hb
  · rintro rfl hb
    exact applyMove_none_of_oob_false s r c hb
  · rintro rfl hd
    exact applyMove_none_of_drawn_true s r c hd
  · rintro rfl hd
    exact applyMove_none_of_drawn_false s r c hd

/-- Witness for C2: a negative row is rejected on the initial board, and the
line already drawn in `demoNext` is rejected there. -/
theorem claim_C2_witness :
    ((-1 : Int) < 0 ∨ (createInitialState.rows : Int) ≤ -1 ∨ (0 : Int) < 0 ∨
      (createInitialState.cols : Int) - 1 ≤ 0) ∧
    applyMove createInitialState (-1) 0 true = none ∧
    demoNext.hLines 0 0 ≠ 0 ∧
    applyMove demoNext 0 0 true = none :=
  ⟨Or.inl (by decide),
   (claim_C2_reject_paths createInitialState (-1) 0 true).2.1 rfl
     (Or.inl (by decide)),
   by decide,
   (claim_C2_reject_paths demoNext 0 0 true).2.2.2.1 rfl (by decide)⟩

/-- C3: an accepted move that completes at least one box keeps
`currentPlayer`; one that completes no box flips it. -/
theorem claim_C3_turn_rule (s : GameState) (r c : Int) (isH : Bool)
    (s' : GameState) (h : applyMove s r c isH = some s') :
    (0 < boxesCompletedBy s r.toNat c.toNat isH →
      s'.currentPlayer = s.currentPlayer) ∧
    (boxesCompletedBy s r.toNat c.toNat isH = 0 →
      s'.currentPlayer = otherPlayer s.currentPlayer) := by
  obtain ⟨_, hs', _, _⟩ := applyMove_elim h
  subst hs'
  cases isH
  · rw [boxesCompletedBy_false, applyMoveCore_eq_false]
    exact ⟨fun hn => coreResult_player_pos _ _ _ _ hn,
           fun hn => coreResult_player_zero _ _ _ _ hn⟩
  · rw [boxesCompletedBy_true, applyMoveCore_eq_true]
    exact ⟨fun hn => coreResult_player_pos _ _ _ _ hn,
           fun hn => coreResult_player_zero _ _ _ _ hn⟩

/-- Witness for C3: the first move completes no box, so the turn passes from
player 1 to player 2. -/
theorem claim_C3_witness :
    applyMove createInitialState 0 0 true = some demoNext ∧
    boxesCompletedBy createInitialState 0 0 true = 0 ∧
    demoNext.currentPlayer = otherPlayer createInitialState.currentPlayer :=
  ⟨rfl, by decide,
   (claim_C3_turn_rule createInitialState 0 0 true demoNext rfl).2 (by decide)⟩

/-- C8: replaying an accepted move against its own result is rejected — the
line cell is now owned by the mover, so the already-drawn check fires (or the
game is over); the move is never double-applied. -/
theorem claim_C8_no_replay (s : GameState) (r c : Int) (isH : Bool)
    (s' : GameState) (hp : s.currentPlayer = 1 ∨ s.currentPlayer = 2)
    (h : applyMove s r c isH = some s') : applyMove s' r c isH = none := by
  obtain ⟨hw, hs', hT, hF⟩ := applyMove_elim h
  have hcur0 : s.currentPlayer ≠ 0 := by
    rcases hp with hp | hp <;> simp [hp]
  subst hs'
  cases isH
  · obtain ⟨h1, h2, h3, h4, h5⟩ := hF rfl
    apply applyMove_none_of_drawn_false
    rw [applyMoveCore_eq_false, (coreResult_base _ _ _ _).2.1, setG_same]
    exact hcur0
  · obtain ⟨h1, h2, h3, h4, h5⟩ := hT rfl
    apply applyMove_none_of_drawn_true
    rw [applyMoveCore_eq_true, (coreResult_base _ _ _ _).1, setG_same]
    exact hcur0

/-- Witness for C8: replaying the first demonstration move is rejected. -/
theorem claim_C8_witness :
    createInitialState.currentPlayer = 1 ∧
    applyMove createInitialState 0 0 true = some demoNext ∧
    applyMove demoNext 0 0 true = none :=
  ⟨rfl, rfl,
   claim_C8_no_replay createInitialState 0 0 true demoNext (Or.inl rfl) rfl⟩

/-- C9: every accepted move increments `moveCount` by exactly one.  Rejected
moves return `none` and, the embedding being pure like the source, leave the
input state untouched. -/
theorem claim_C9_move_count (s : GameState) (r c : Int) (isH : Bool)
    (s' : GameState) (h : applyMove s r c isH = some s') :
    s'.moveCount = s.moveCount + 1 := by
  obtain ⟨_, hs', _, _⟩ := applyMove_elim h
  subst hs'
  cases isH
  · rw [applyMoveCore_eq_false]
    exact (coreResult_base _ _ _ _).2.2.2.1
  · rw [applyMoveCore_eq_true]
    exact (coreResult_base _ _ _ _).2.2.2.1

/-- Witness for C9 at the first demonstration move. -/
theorem claim_C9_witness :
    applyMove createInitialState 0 0 true = some demoNext ∧
    demoNext.moveCount = createInitialState.moveCount + 1 :=
  ⟨rfl, claim_C9_move_count createInitialState 0 0 true demoNext rfl⟩

/-- C10: an accepted move sets exactly the targeted line cell to the mover and
changes no other line cell, completes at most two boxes (so the score total
grows by at most 2), and leaves every previously assigned box cell unchanged.
Stated over reachable states, whose §3 data-model invariants guarantee that a
box adjacent to a fresh line was not yet assigned. -/
theorem claim_C10_frame_effect (s : GameState) (r c : Int) (isH : Bool)
    (s' : GameState) (hreach : Reachable s)
    (h : applyMove s r c isH = some s') :
    boxesCompletedBy s r.toNat c.toNat isH ≤ 2 ∧
    s'.scores1 + s'.scores2
      = s.scores1 + s.scores2 + boxesCompletedBy s r.toNat c.toNat isH ∧
    s'.scores1 + s'.scores2 ≤ s.scores1 + s.scores2 + 2 ∧
    (isH = true →
      s'.hLines r.toNat c.toNat = s.currentPlayer ∧
      s'.vLines = s.vLines ∧
      (∀ i j : Nat, ¬(i = r.toNat ∧ j = c.toNat) →
        s'.hLines i j = s.hLines i j)) ∧
    (isH = false →
      s'.vLines r.toNat c.toNat = s.currentPlayer ∧
      s'.hLines = s.hLines ∧
      (∀ i j : Nat, ¬(i = r.toNat ∧ j = c.toNat) →
        s'.vLines i j = s.vLines i j)) ∧
    (∀ i j : Nat, s.boxes i j ≠ 0 → s'.boxes i j = s.boxes i j) := by
  obtain ⟨hw, hs', hT, hF⟩ := applyMove_elim h
  have inv := reachable_inv hreach
  subst hs'
  cases isH
  · obtain ⟨h1, h2, h3, h4, h5⟩ := hF rfl
    have hr : r.toNat < 7 := by rw [inv.rows_eq] at h2; omega
    have hc : c.toNat < 8 := by rw [inv.cols_eq] at h4; omega
    rw [boxesCompletedBy_false, applyMoveCore_eq_false]
    obtain ⟨hbH, hbV, hbB, hbM, hbR, hbC⟩ := coreResult_base s s.hLines
      (setG s.vLines r.toNat c.toNat s.currentPlayer)
      (completedBoxes s.rows s.cols s.hLines
        (setG s.vLines r.toNat c.toNat s.currentPlayer) r.toNat c.toNat false)
    have hsum := coreResult_scores s s.hLines
      (setG s.vLines r.toNat c.toNat s.currentPlayer)
      (completedBoxes s.rows s.cols s.hLines
        (setG s.vLines r.toNat c.toNat s.currentPlayer) r.toNat c.toNat false)
      inv.player_ok
    have hlen := completedBoxes_length_le s.rows s.cols s.hLines
      (setG s.vLines r.toNat c.toNat s.currentPlayer) r.toNat c.toNat false
    refine ⟨hlen, hsum, by omega, ?_, ?_, ?_⟩
    · intro habs
      exact absurd habs (by simp)
    · intro _
      refine ⟨?_, hbH, ?_⟩
      · rw [hbV, setG_same]
      · intro i j hij
        rw [hbV]
        exact setG_ne _ _ _ _ _ _ hij
    · intro i j hbox
      rw [hbB]
      apply writeBoxes_frame
      intro p hpL hc'
      have hzero := (completedV_facts s inv r.toNat c.toNat hr hc h5 p hpL).2.2.1
      rw [hc'.1, hc'.2] at hzero
      exact hbox hzero
  · obtain ⟨h1, h2, h3, h4, h5⟩ := hT rfl
    have hr : r.toNat < 8 := by rw [inv.rows_eq] at h2; omega
    have hc : c.toNat < 7 := by rw [inv.cols_eq] at h4; omega
    rw [boxesCompletedBy_true, applyMoveCore_eq_true]
    obtain ⟨hbH, hbV, hbB, hbM, hbR, hbC⟩ := coreResult_base s
      (setG s.hLines r.toNat c.toNat s.currentPlayer) s.vLines
      (completedBoxes s.rows s.cols
        (setG s.hLines r.toNat c.toNat s.currentPlayer) s.vLines
        r.toNat c.toNat true)
    have hsum := coreResult_scores s
      (setG s.hLines r.toNat c.toNat s.currentPlayer) s.vLines
      (completedBoxes s.rows s.cols
        (setG s.hLines r.toNat c.toNat s.currentPlayer) s.vLines
        r.toNat c.toNat true)
      inv.player_ok
    have hlen := completedBoxes_length_le s.rows s.cols
      (setG s.hLines r.toNat c.toNat s.currentPlayer) s.vLines
      r.toNat c.toNat true
    refine ⟨hlen, hsum, by omega, ?_, ?_, ?_⟩
    · intro _
      refine ⟨?_, hbV, ?_⟩
      · rw [hbH, setG_same]
      · intro i j hij
        rw [hbH]
        exact setG_ne _ _ _ _ _ _ hij
    · intro habs
      exact absurd habs (by simp)
    · intro i j hbox
      rw [hbB]
      apply writeBoxes_frame
      intro p hpL hc'
      have hzero := (completedH_facts s inv r.toNat c.toNat hr hc h5 p hpL).2.2.1
      rw [hc'.1, hc'.2] at hzero
      exact hbox hzero

/-- Witness for C10 at the first demonstration move. -/
theorem claim_C10_witness :
    applyMove createInitialState 0 0 true = some demoNext ∧
    (boxesCompletedBy createInitialState 0 0 true ≤ 2 ∧
     demoNext.scores1 + demoNext.scores2
       = createInitialState.scores1 + createInitialState.scores2
         + boxesCompletedBy createInitialState 0 0 true ∧
     demoNext.scores1 + demoNext.scores2
       ≤ createInitialState.scores1 + createInitialState.scores2 + 2 ∧
     (true = true →
       demoNext.hLines 0 0 = createInitialState.currentPlayer ∧
       demoNext.vLines = createInitialState.vLines ∧
       (∀ i j : Nat, ¬(i = 0 ∧ j = 0) →
         demoNext.hLines i j = createInitialState.hLines i j)) ∧
     (true = false →
       demoNext.vLines 0 0 = createInitialState.currentPlayer ∧
       demoNext.hLines = createInitialState.hLines ∧
       (∀ i j : Nat, ¬(i = 0 ∧ j = 0) →
         demoNext.vLines i j = createInitialState.vLines i j)) ∧
     (∀ i j : Nat, createInitialState.boxes i j ≠ 0 →
       demoNext.boxes i j = createInitialState.boxes i j)) :=
  ⟨rfl, claim_C10_frame_effect createInitialState 0 0 true demoNext
    Reachable.init rfl⟩

/-!
## Claim theorems: RoomSession and client controller
-/

/-- C4 (counterexample): a move request in a room where only player 1 is
connected produces *no* response at all — the handler silently returns — so
the claimed "waiting for opponent" notice (an `error` message) is never sent. -/
theorem claim_C4_counterexample :
    (socketsTagged demoRoomOne 2).length = 0 ∧
    (webSocketMessage demoRoomOne 0
      (ClientMsg.move (some 0) (some 0) (some true))).2 = [] :=
  ⟨rfl, rfl⟩

/-- C4 (amended): every rejection path of the move handler — missing
opponent, not your turn, missing coordinates, engine rejection — sends no
message at all, closes nothing (the socket list is untouched), and changes no
authoritative state beyond rehydrating the in-memory copy from storage. -/
theorem claim_C4_silent_rejects (room : RoomState) (ws : Nat)
    (r? c? : Option Int) (h? : Option Bool) :
    ((socketsTagged room 1).length = 0 ∨ (socketsTagged room 2).length = 0 →
      webSocketMessage room ws (ClientMsg.move r? c? h?) = (room, [])) ∧
    ((socketsTagged room 1).length ≠ 0 → (socketsTagged room 2).length ≠ 0 →
      (senderIndex room ws ≠ (rehydrate room).gameState.currentPlayer →
        webSocketMessage room ws (ClientMsg.move r? c? h?)
          = (rehydrate room, [])) ∧
      (senderIndex room ws = (rehydrate room).gameState.currentPlayer →
        (r? = none ∨ c? = none ∨ h? = none) →
        webSocketMessage room ws (ClientMsg.move r? c? h?)
          = (rehydrate room, [])) ∧
      (∀ (rr cc : Int) (hh : Bool), r? = some rr → c? = some cc → h? = some hh →
        senderIndex room ws = (rehydrate room).gameState.currentPlayer →
        applyMove (rehydrate room).gameState rr cc hh = none →
        webSocketMessage room ws (ClientMsg.move r? c? h?)
          = (rehydrate room, []))) := by
  constructor
  · intro hor
    simp only [webSocketMessage]
    rcases hor with h1 | h2
    · rw [if_pos h1]
    · by_cases h1 : (socketsTagged room 1).length = 0
      · rw [if_pos h1]
      · rw [if_neg h1, if_pos h2]
  · intro h1 h2
    refine ⟨?_, ?_, ?_⟩
    · intro hne
      simp only [webSocketMessage]
      rw [if_neg h1, if_neg h2, if_pos hne]
    · intro heq hmiss
      rcases r? with _ | rr <;> rcases c? with _ | cc <;> rcases h? with _ | hh <;>
        simp only [webSocketMessage] <;>
        rw [if_neg h1, if_neg h2, if_neg (not_not_intro heq)]
      all_goals first
        | rfl
        | simp at hmiss
    · intro rr cc hh hr hc hhh heq happ
      subst hr
      subst hc
      subst hhh
      simp only [webSocketMessage]
      rw [if_neg h1, if_neg h2, if_neg (not_not_intro heq)]
      simp only [happ]

/-- Witness for the amended C4: a room with one connected player silently
drops a move request. -/
theorem claim_C4_witness :
    (socketsTagged demoRoomOne 2).length = 0 ∧
    webSocketMessage demoRoomOne 0 (ClientMsg.move (some 1) (some 1) (some false))
      = (demoRoomOne, []) :=
  ⟨rfl, (claim_C4_silent_rejects demoRoomOne 0 (some 1) (some 1)
    (some false)).1 (Or.inr rfl)⟩

/-- C5 (counterexample): a third connection to a full room is refused with a
plain HTTP 409 response — the transport handshake is never accepted, no
`full` message is delivered over it, and the room (its tracked sockets
included) is unchanged. -/
theorem claim_C5_counterexample :
    roomFetch demoRoomFull true 2
      = (demoRoomFull, FetchResult.httpError 409 "Room is full", []) := rfl

/-- C5 (amended): the first connection gets slot 1 and the second slot 2 and
both are registered; with both slots occupied, `fetch` answers HTTP 409
"Room is full" without upgrading, sends nothing, and registers nothing. -/
theorem claim_C5_admission (room : RoomState) (w : Nat) :
    ((socketsTagged room 1).length = 0 →
      (roomFetch room true w).2.1 = FetchResult.upgraded 1 ∧
      (roomFetch room true w).1.sockets
        = (rehydrate room).sockets ++ [(w, 1)]) ∧
    ((socketsTagged room 1).length ≠ 0 → (socketsTagged room 2).length = 0 →
      (roomFetch room true w).2.1 = FetchResult.upgraded 2 ∧
      (roomFetch room true w).1.sockets
        = (rehydrate room).sockets ++ [(w, 2)]) ∧
    ((socketsTagged room 1).length ≠ 0 → (socketsTagged room 2).length ≠ 0 →
      roomFetch room true w
        = (room, FetchResult.httpError 409 "Room is full", [])) := by
  refine ⟨?_, ?_, ?_⟩
  · intro h1
    simp only [roomFetch, Bool.not_true, Bool.false_eq_true, if_false]
    rw [if_pos (Or.inl h1), if_pos h1]
    exact ⟨rfl, rfl⟩
  · intro h1 h2
    simp only [roomFetch, Bool.not_true, Bool.false_eq_true, if_false]
    rw [if_pos (Or.inr h2), if_neg h1]
    exact ⟨rfl, rfl⟩
  · intro h1 h2
    simp only [roomFetch, Bool.not_true, Bool.false_eq_true, if_false]
    have hno : ¬((socketsTagged room 1).length = 0 ∨
        (socketsTagged room 2).length = 0) := by
      rintro (h | h)
      · exact h1 h
      · exact h2 h
    rw [if_neg hno]

/-- Witness for the amended C5: slots are handed out in order on concrete
rooms, and the full room answers 409. -/
theorem claim_C5_witness :
    ((socketsTagged demoRoomEmpty 1).length = 0 ∧
      (roomFetch demoRoomEmpty true 10).2.1 = FetchResult.upgraded 1) ∧
    ((socketsTagged demoRoomOne 1).length ≠ 0 ∧
      (socketsTagged demoRoomOne 2).length = 0 ∧
      (roomFetch demoRoomOne true 11).2.1 = FetchResult.upgraded 2) ∧
    ((socketsTagged demoRoomFull 1).length ≠ 0 ∧
      (socketsTagged demoRoomFull 2).length ≠ 0 ∧
      roomFetch demoRoomFull true 12
        = (demoRoomFull, FetchResult.httpError 409 "Room is full", [])) :=
  ⟨⟨rfl, ((claim_C5_admission demoRoomEmpty 10).1 rfl).1⟩,
   ⟨by decide, rfl, ((claim_C5_admission demoRoomOne 11).2.1 (by decide) rfl).1⟩,
   ⟨by decide, by decide,
    (claim_C5_admission demoRoomFull 12).2.2 (by decide) (by decide)⟩⟩

/-- C6 (counterexample): when a socket dies in a two-player room, the survivor
receives `opponent_disconnected`, but that message type carries no game
state at all (`GameRoom.ts` line 13), contrary to the claimed snapshot; the
session also has no heartbeat timer that could close stale sockets. -/
theorem claim_C6_counterexample :
    (webSocketClose demoRoomFull 0).2
      = [(1, ServerMessage.opponentDisconnected)] ∧
    carriesGameState ServerMessage.opponentDisconnected = none :=
  ⟨rfl, rfl⟩

/-- C6 (amended): on socket close the session broadcasts a bare
`opponent_disconnected` — carrying no state snapshot — to every *other*
tracked socket, and mutates nothing; there is no heartbeat-driven staleness
path in this implementation (liveness is delegated to the platform's
hibernatable WebSockets). -/
theorem claim_C6_disconnect_broadcast (room : RoomState) (ws : Nat) :
    (webSocketClose room ws).1 = room ∧
    (∀ sck ∈ room.sockets, sck.1 ≠ ws →
      (sck.1, ServerMessage.opponentDisconnected) ∈ (webSocketClose room ws).2) ∧
    (∀ m ∈ (webSocketClose room ws).2,
      m.2 = ServerMessage.opponentDisconnected ∧
      carriesGameState m.2 = none ∧ m.1 ≠ ws) := by
  refine ⟨rfl, ?_, ?_⟩
  · intro sck hmem hne
    simp only [webSocketClose, List.mem_map]
    exact ⟨sck, List.mem_filter.mpr ⟨hmem, decide_eq_true hne⟩, rfl⟩
  · intro m hm
    simp only [webSocketClose, List.mem_map] at hm
    obtain ⟨sck, hsck, rfl⟩ := hm
    have hfil := List.mem_filter.mp hsck
    exact ⟨rfl, rfl, of_decide_eq_true hfil.2⟩

/-- Witness for the amended C6: closing socket 0 of the two-player demo room
delivers the bare disconnect notice to socket 1. -/
theorem claim_C6_witness :
    ((1, 2) ∈ demoRoomFull.sockets ∧ (1 : Nat) ≠ 0) ∧
    (1, ServerMessage.opponentDisconnected) ∈ (webSocketClose demoRoomFull 0).2 :=
  ⟨⟨by decide, by decide⟩,
   (claim_C6_disconnect_broadcast demoRoomFull 0).2.1 (1, 2) (by decide)
     (by decide)⟩

/-- C7: on an unexpected close (not the deliberate `idle` transition) with a
matching generation: below 3 attempts, with a known room and not already
disconnected, the controller increments the counter, enters `reconnecting`,
and schedules the same room after 2000 ms; otherwise it settles into
`disconnected` with nothing scheduled.  A generation-matching `open` resets
the counter to zero. -/
theorem claim_C7_reconnect_policy (cs : ClientConn) (myId : Nat)
    (hgen : cs.wsId = myId) (hidle : cs.status ≠ RemoteStatus.idle) :
    (∀ rid : String, cs.status ≠ RemoteStatus.disconnected →
      cs.roomId = some rid → cs.attempts < MAX_RECONNECT_ATTEMPTS →
      onClose cs myId
        = ({ cs with
             attempts := cs.attempts + 1
             status := RemoteStatus.reconnecting },
           some (rid, RECONNECT_DELAY_MS))) ∧
    ((cs.status = RemoteStatus.disconnected ∨ cs.roomId = none ∨
        MAX_RECONNECT_ATTEMPTS ≤ cs.attempts) →
      onClose cs myId = ({ cs with status := RemoteStatus.disconnected }, none)) ∧
    (onOpen cs myId).attempts = 0 := by
  have hg : ¬(cs.wsId ≠ myId) := not_not_intro hgen
  refine ⟨?_, ?_, ?_⟩
  · intro rid hnd hrid hatt
    unfold onClose
    rw [if_neg hg, if_neg hidle,
        if_pos (⟨hatt, hnd, by simp [hrid]⟩ :
          cs.attempts < MAX_RECONNECT_ATTEMPTS ∧
          cs.status ≠ RemoteStatus.disconnected ∧ cs.roomId.isSome),
        hrid]
    rfl
  · intro hcase
    unfold onClose
    have hno : ¬(cs.attempts < MAX_RECONNECT_ATTEMPTS ∧
        cs.status ≠ RemoteStatus.disconnected ∧ cs.roomId.isSome) := by
      rintro ⟨ha, hb, hcs⟩
      rcases hcase with h | h | h
      · exact hb h
      · rw [h] at hcs
        simp at hcs
      · omega
    rw [if_neg hg, if_neg hidle, if_neg hno]
  · unfold onOpen
    rw [if_neg hg]

/-- Witness for C7: a ready client at attempt 0 schedules a 2-second
reconnect to its room, and an open event resets the counter. -/
theorem claim_C7_witness :
    (demoConn.wsId = 5 ∧ demoConn.status ≠ RemoteStatus.idle ∧
      demoConn.status ≠ RemoteStatus.disconnected ∧
      demoConn.roomId = some "JKLMNP" ∧
      demoConn.attempts < MAX_RECONNECT_ATTEMPTS) ∧
    onClose demoConn 5
      = ({ demoConn with
           attempts := 1
           status := RemoteStatus.reconnecting },
         some ("JKLMNP", RECONNECT_DELAY_MS)) ∧
    (onOpen demoConn 5).attempts = 0 :=
  ⟨⟨rfl, by decide, by decide, rfl, by decide⟩,
   (claim_C7_reconnect_policy demoConn 5 rfl (by decide)).1 "JKLMNP"
     (by decide) rfl (by decide),
   (claim_C7_reconnect_policy demoConn 5 rfl (by decide)).2.2⟩
